import Mathlib

/-!
# Verification of the `open-share` utility (src/src/main.rs)

Shallow embedding of the connection-reconciliation program.  The
interaction of the program with the operating system (the WNet enumeration API, the
connection-establishment call and the shell launch call) is modelled by an
environment value that fixes the result of every OS call the program makes,
in the order the program makes them:

* `WNetOpenEnumW` returns a status code (`EnumBehavior.openResult`);
* each successive `WNetEnumResourceW` call returns one `PageResult`
  (status code plus the `NETRESOURCEW` structs written into the 16 KiB
  page buffer);
* `WNetAddConnection2W` returns a status code (`OsWorld.connectResult`);
* `ShellExecuteW` returns an integer (`OsWorld.launchResult`).

Wide strings owned by the OS are modelled as their list of 16-bit code
units (the units found before the terminating NUL); Rust `String`s are
modelled as `List Char`.  Rust panics (`unwrap` failures) are modelled
explicitly: functions that can panic return an outcome that distinguishes
a normal return from a panic.
-/

set_option autoImplicit false

namespace OpenShare

/-- Status code `NO_ERROR` (0). -/
def NO_ERROR : Nat := 0

/-- Status code `ERROR_NO_MORE_ITEMS` (259). -/
def ERROR_NO_MORE_ITEMS : Nat := 259

/-- Value of `size_of::<NETRESOURCEW>()` on the 64-bit Windows target the crate
compiles for: four 4-byte `u32` fields plus four 8-byte pointer fields. -/
def sizeOfNETRESOURCEW : Nat := 48

/-- The page buffer allocated in `is_connection_already_open`:
`vec![0u8; 16*1024]`. -/
def enumBufferSize : Nat := 16 * 1024

/-- Decode a sequence of UTF-16 code units into characters, mirroring the Rust
function `String::from_utf16`: basic-multilingual-plane units outside the surrogate
range decode directly, a high surrogate must be followed by a low surrogate
(together decoding to a supplementary-plane scalar), and any lone surrogate
makes decoding fail (`none`).  Code units are `Nat`s; values `≥ 0x10000`
cannot arise from a `u16` and are mapped to `none`. -/
def utf16Decode : List Nat → Option (List Char)
  | [] => some []
  | u :: rest =>
    if u < 0xD800 ∨ (0xE000 ≤ u ∧ u < 0x10000) then
      match utf16Decode rest with
      | some cs => some (Char.ofNat u :: cs)
      | none => none
    else if u < 0xDC00 then
      match rest with
      | [] => none
      | v :: rest2 =>
        if 0xDC00 ≤ v ∧ v < 0xE000 then
          match utf16Decode rest2 with
          | some cs =>
            some (Char.ofNat (0x10000 + (u - 0xD800) * 0x400 + (v - 0xDC00)) :: cs)
          | none => none
        else none
    else none

/-- Model of `wcstr_to_string` (main.rs:20-28): reads the code units up to the NUL
terminator (here the list itself) and converts with
`String::from_utf16(..).unwrap()`.  `none` models the `unwrap` panic on
invalid UTF-16. -/
def wcstr_to_string (units : List Nat) : Option (List Char) :=
  utf16Decode units

/-- Model of the Rust method `str::to_lowercase`, restricted to the per-character case mapping
(`Char.toLower`), which agrees with Rust on all the ASCII share paths this
development evaluates. -/
def rustLower (s : List Char) : List Char :=
  s.map Char.toLower

/-- The path comparison performed by `is_connection_already_open`
(main.rs:41 together with main.rs:102-105): both strings are lowercased and
compared for literal equality. -/
def pathMatches (candidate recorded : List Char) : Bool :=
  rustLower candidate == rustLower recorded

/-- One `NETRESOURCEW` struct as decoded from the page buffer.  Only
`lpRemoteName` is inspected by the program; `none` models a null
`lpRemoteName` pointer, `some units` a pointer to a NUL-terminated wide
string with the given pre-NUL code units. -/
structure NETRESOURCEW where
  lpRemoteName : Option (List Nat)
deriving DecidableEq

/-- The outcome of one `WNetEnumResourceW` call: the returned status code,
and the `NETRESOURCEW` structs the OS wrote into the page buffer (the
reported count is `records.length`; the records are only meaningful when
`code = NO_ERROR`). -/
structure PageResult where
  code : Nat
  records : List NETRESOURCEW
deriving DecidableEq

/-- How one run of the enumeration loop in `is_connection_already_open`
ends: a normal return of the `found` flag, a Rust panic (`unwrap` failure),
or `stuck` when the environment supplies fewer `WNetEnumResourceW` results
than the loop requests (no real OS behaves this way; theorems about
terminating runs exclude it by hypothesis). -/
inductive LoopEnd where
  | found (b : Bool)
  | panicked
  | stuck
deriving DecidableEq

/-- Observable outcome of the enumeration loop: how it ended, and how many
times `WNetCloseEnum` was called. -/
structure EnumTrace where
  endState : LoopEnd
  closeCalls : Nat
deriving DecidableEq

/-- The inner `for st in structs` loop of `is_connection_already_open`
(main.rs:98-110): skip records with a null `lpRemoteName`, decode the
remote name (`none` = panic of the `wcstr_to_string` unwrap), lowercase it
and compare with the pre-lowercased candidate path, stopping at the first
match.  Returns `some true` on a match, `some false` when the records are
exhausted, `none` on a panic. -/
def scanRecords (pathLower : List Char) : List NETRESOURCEW → Option Bool
  | [] => some false
  | r :: rest =>
    match r.lpRemoteName with
    | none => scanRecords pathLower rest
    | some units =>
      match wcstr_to_string units with
      | none => none
      | some chars =>
        if rustLower chars == pathLower then some true
        else scanRecords pathLower rest

/-- The `loop` of `is_connection_already_open` (main.rs:62-111) plus the
final `WNetCloseEnum` (main.rs:113-118), consuming one `PageResult` per
`WNetEnumResourceW` call.  `found` is the accumulator variable of the loop.

* `ERROR_NO_MORE_ITEMS` breaks the loop; the handle is closed once and the
  accumulated `found` flag is returned.
* Any other non-`NO_ERROR` code closes the handle once and returns `false`
  (the fail-open branch, main.rs:76-83) — note this discards `found`.
* On `NO_ERROR` the page is decoded: `read_exact` into
  `records.length * sizeOfNETRESOURCEW` bytes panics when that exceeds the
  16 KiB buffer (main.rs:94), then the records are scanned and the loop
  continues with the updated flag. -/
def enumLoop (pathLower : List Char) : List PageResult → Bool → EnumTrace
  | [], _ => ⟨.stuck, 0⟩
  | p :: rest, found =>
    if p.code = ERROR_NO_MORE_ITEMS then ⟨.found found, 1⟩
    else if p.code ≠ NO_ERROR then ⟨.found false, 1⟩
    else if enumBufferSize < p.records.length * sizeOfNETRESOURCEW then ⟨.panicked, 0⟩
    else
      match scanRecords pathLower p.records with
      | none => ⟨.panicked, 0⟩
      | some f => enumLoop pathLower rest (found || f)

/-- The enumeration-related behaviour of the OS during one run. -/
structure EnumBehavior where
  openResult : Nat
  pages : List PageResult
deriving DecidableEq

/-- Observable outcome of `is_connection_already_open`: how it ended,
whether `WNetOpenEnumW` succeeded, and how many times `WNetCloseEnum` was
called. -/
structure EnumRun where
  endState : LoopEnd
  opened : Bool
  closeCalls : Nat
deriving DecidableEq

/-- Model of `is_connection_already_open` (main.rs:40-121).  If `WNetOpenEnumW`
fails the function logs and returns `false` without ever touching the
handle (main.rs:54-58); otherwise it runs the enumeration loop. -/
def is_connection_already_open (path : List Char) (os : EnumBehavior) : EnumRun :=
  if os.openResult ≠ NO_ERROR then ⟨.found false, false, 0⟩
  else
    let t := enumLoop (rustLower path) os.pages false
    ⟨t.endState, true, t.closeCalls⟩

/-- Complete OS behaviour for one run of `inner_main`. -/
structure OsWorld where
  enum : EnumBehavior
  /-- Status code returned by `WNetAddConnection2W`, if it is called. -/
  connectResult : Nat
  /-- Value returned by `ShellExecuteW` (as `usize`), if it is called. -/
  launchResult : Nat
deriving DecidableEq

/-- Model of `connect_to_share` (main.rs:123-156): calls `WNetAddConnection2W` once
and returns whether it reported `NO_ERROR`. -/
def connect_to_share (os : OsWorld) : Bool :=
  os.connectResult == NO_ERROR

/-- Model of `open_path` (main.rs:158-178): calls `ShellExecuteW` once; return
values at or below 32 are failure, values above 32 success
(main.rs:171-177). -/
def open_path (os : OsWorld) : Bool :=
  decide (32 < os.launchResult)

/-- The externally visible calls `inner_main` makes that mutate OS state or
launch programs, in order. -/
inductive Ev where
  /-- One `WNetAddConnection2W` call (via `connect_to_share`). -/
  | connect
  /-- One `ShellExecuteW` call (via `open_path`). -/
  | launch
deriving DecidableEq

/-- How a run of `inner_main` ends: with an exit code, or absorbed into a
panic / an under-specified environment inside the enumeration. -/
inductive RunEnd where
  | exit (code : Nat)
  | panicked
  | stuck
deriving DecidableEq

/-- Observable outcome of `inner_main`: the final result and the ordered
list of connect/launch calls made. -/
structure RunTrace where
  outcome : RunEnd
  events : List Ev
deriving DecidableEq

/-- The tail of `inner_main` from main.rs:201-204: `open_path` is invoked
and its boolean success picks exit code 0 or 1. -/
def launchStep (os : OsWorld) (evs : List Ev) : RunTrace :=
  if open_path os then ⟨.exit 0, evs ++ [.launch]⟩
  else ⟨.exit 1, evs ++ [.launch]⟩

/-- Model of `inner_main` (main.rs:181-205).  Here `args` is the full `env::args()`
vector including the program name, so exactly two positional arguments
means `args.length = 3` (main.rs:187).  If the share is not already open,
`connect_to_share` is called and a failure aborts with exit code 1
(main.rs:195-199); then `open_path` decides the exit code. -/
def inner_main (args : List (List Char)) (os : OsWorld) : RunTrace :=
  if args.length ≠ 3 then ⟨.exit 1, []⟩
  else
    let path := args.getD 1 []
    match (is_connection_already_open path os.enum).endState with
    | .panicked => ⟨.panicked, []⟩
    | .stuck => ⟨.stuck, []⟩
    | .found true => launchStep os []
    | .found false =>
      if connect_to_share os then launchStep os [.connect]
      else ⟨.exit 1, [.connect]⟩

/-- A record matches the (pre-lowercased) candidate path exactly when its
remote name is non-null, decodes as UTF-16, and compares equal after
lowercasing — the test of main.rs:99-109 for one record. -/
def recordMatches (pathLower : List Char) (r : NETRESOURCEW) : Bool :=
  match r.lpRemoteName with
  | none => false
  | some units =>
    match wcstr_to_string units with
    | none => false
    | some chars => rustLower chars == pathLower

/-- The candidate path is present (case-insensitively, as a literal string)
in the connection table, as reported by the enumeration pages: some
successfully fetched page holds a matching record. -/
def pathInTable (path : List Char) (pages : List PageResult) : Bool :=
  pages.any fun p => p.code == NO_ERROR && p.records.any (recordMatches (rustLower path))

/-- A record whose remote name is either null or valid UTF-16; only such
records can be scanned without panicking. -/
def recordDecodes (r : NETRESOURCEW) : Bool :=
  match r.lpRemoteName with
  | none => true
  | some units => (wcstr_to_string units).isSome

/-- On a list of records that all decode, the inner scan never panics and
returns exactly whether some record matches. -/
theorem scanRecords_eq_any (pl : List Char) :
    ∀ rs : List NETRESOURCEW, (∀ r ∈ rs, recordDecodes r = true) →
      scanRecords pl rs = some (rs.any (recordMatches pl)) := by
  intro rs
  induction rs with
  | nil => intro _; rfl
  | cons r rest ih =>
    intro h
    have hr : recordDecodes r = true := h r (List.mem_cons_self r rest)
    have hrest : ∀ s ∈ rest, recordDecodes s = true :=
      fun s hs => h s (List.mem_cons_of_mem r hs)
    match hname : r.lpRemoteName with
    | none =>
      simp [scanRecords, recordMatches, hname, ih hrest]
    | some units =>
      simp only [recordDecodes, hname] at hr
      match hw : wcstr_to_string units with
      | none => simp [hw] at hr
      | some chars =>
        cases hm : rustLower chars == pl with
        | true => simp [scanRecords, recordMatches, hname, hw, hm]
        | false => simp [scanRecords, recordMatches, hname, hw, hm, ih hrest]

/-- Whenever the inner scan returns normally, its result coincides with
whether some record matches (no decode hypotheses needed: the scan stops at
the first match, before any record that might fail to decode). -/
theorem scanRecords_some (pl : List Char) :
    ∀ (rs : List NETRESOURCEW) (b : Bool), scanRecords pl rs = some b →
      rs.any (recordMatches pl) = b := by
  intro rs
  induction rs with
  | nil => intro b hb; rw [scanRecords] at hb; cases hb; rfl
  | cons r rest ih =>
    intro b hb
    match hname : r.lpRemoteName with
    | none =>
      simp only [scanRecords, hname] at hb
      simp only [List.any_cons, recordMatches, hname, Bool.false_or]
      exact ih b hb
    | some units =>
      simp only [scanRecords, hname] at hb
      match hw : wcstr_to_string units with
      | none => simp only [hw] at hb; cases hb
      | some chars =>
        simp only [hw] at hb
        cases hm : rustLower chars == pl with
        | true =>
          simp only [hm, if_true] at hb
          cases hb
          simp [List.any_cons, recordMatches, hname, hw, hm]
        | false =>
          simp only [hm, Bool.false_eq_true, if_false] at hb
          simp only [List.any_cons, recordMatches, hname, hw, hm, Bool.false_or]
          exact ih b hb

/-- A page is well formed when its fetch succeeded, its reported record
count fits in the 16 KiB buffer, and every record it carries decodes. -/
def pageOk (p : PageResult) : Prop :=
  p.code = NO_ERROR ∧
  p.records.length * sizeOfNETRESOURCEW ≤ enumBufferSize ∧
  ∀ r ∈ p.records, recordDecodes r = true

instance : DecidablePred pageOk := fun p =>
  decidable_of_iff
    (p.code = NO_ERROR ∧
      p.records.length * sizeOfNETRESOURCEW ≤ enumBufferSize ∧
      ∀ r ∈ p.records, recordDecodes r = true)
    Iff.rfl

/-- Records of a page that match the (pre-lowercased) candidate path. -/
def pageHasMatch (pl : List Char) (p : PageResult) : Bool :=
  p.records.any (recordMatches pl)

/-- Running the loop over well-formed pages followed by a no-more-items
terminator returns normally: the result is the accumulator joined with
whether any page holds a matching record, and the handle is closed once. -/
theorem enumLoop_clean (pl : List Char) :
    ∀ (front : List PageResult) (last : PageResult) (acc : Bool),
      (∀ p ∈ front, pageOk p) → last.code = ERROR_NO_MORE_ITEMS →
      enumLoop pl (front ++ [last]) acc =
        ⟨.found (acc || front.any (pageHasMatch pl)), 1⟩ := by
  intro front
  induction front with
  | nil =>
    intro last acc _ hlast
    simp [enumLoop, hlast]
  | cons p front ih =>
    intro last acc h hlast
    obtain ⟨hc, hsize, hdec⟩ := h p (List.mem_cons_self p front)
    have hfront : ∀ q ∈ front, pageOk q :=
      fun q hq => h q (List.mem_cons_of_mem p hq)
    have hne : p.code ≠ ERROR_NO_MORE_ITEMS := by
      rw [hc]; decide
    rw [List.cons_append, enumLoop, if_neg hne, if_neg (by simp [hc]),
      if_neg (Nat.not_lt.mpr hsize), scanRecords_eq_any pl p.records hdec]
    dsimp only
    rw [ih last (acc || p.records.any (recordMatches pl)) hfront hlast]
    simp [pageHasMatch, Bool.or_assoc]

/-- If no successfully fetched page holds a matching record, a loop started
with a false accumulator can only return false. -/
theorem enumLoop_no_match (pl : List Char) :
    ∀ (pages : List PageResult) (b : Bool),
      (∀ p ∈ pages, p.code = NO_ERROR → pageHasMatch pl p = false) →
      (enumLoop pl pages false).endState = .found b → b = false := by
  intro pages
  induction pages with
  | nil => intro b _ hb; simp [enumLoop] at hb
  | cons p rest ih =>
    intro b h hb
    have hrest : ∀ q ∈ rest, q.code = NO_ERROR → pageHasMatch pl q = false :=
      fun q hq => h q (List.mem_cons_of_mem p hq)
    rw [enumLoop] at hb
    by_cases h259 : p.code = ERROR_NO_MORE_ITEMS
    · rw [if_pos h259] at hb
      cases hb
      rfl
    · rw [if_neg h259] at hb
      by_cases h0 : p.code = NO_ERROR
      · rw [if_neg (by simp [h0])] at hb
        by_cases hbig : enumBufferSize < p.records.length * sizeOfNETRESOURCEW
        · rw [if_pos hbig] at hb
          cases hb
        · rw [if_neg hbig] at hb
          match hscan : scanRecords pl p.records with
          | none => rw [hscan] at hb; cases hb
          | some f =>
            rw [hscan] at hb
            have hf : f = false := by
              have := scanRecords_some pl p.records f hscan
              rw [← this]
              exact h p (List.mem_cons_self p rest) h0
            rw [hf] at hb
            exact ih b hrest hb
      · rw [if_pos h0] at hb
        cases hb
        rfl

/-- The loop closes the enumeration handle exactly once when it returns
normally and never otherwise (a panic aborts before the close; an exhausted
environment never reaches it). -/
theorem enumLoop_closeCalls (pl : List Char) :
    ∀ (pages : List PageResult) (acc : Bool),
      (enumLoop pl pages acc).closeCalls =
        match (enumLoop pl pages acc).endState with
        | .found _ => 1
        | .panicked => 0
        | .stuck => 0 := by
  intro pages
  induction pages with
  | nil => intro acc; rfl
  | cons p rest ih =>
    intro acc
    rw [enumLoop]
    by_cases h259 : p.code = ERROR_NO_MORE_ITEMS
    · rw [if_pos h259]
    · rw [if_neg h259]
      by_cases h0 : p.code ≠ NO_ERROR
      · rw [if_pos h0]
      · rw [if_neg h0]
        by_cases hbig : enumBufferSize < p.records.length * sizeOfNETRESOURCEW
        · rw [if_pos hbig]
        · rw [if_neg hbig]
          match hscan : scanRecords pl p.records with
          | none => rfl
          | some f => exact ih (acc || f)

/-- With the correct arity, `inner_main` dispatches on how the enumeration
ended. -/
theorem inner_main_of_length (args : List (List Char)) (os : OsWorld)
    (h3 : args.length = 3) :
    inner_main args os =
      match (is_connection_already_open (args.getD 1 []) os.enum).endState with
      | .panicked => ⟨.panicked, []⟩
      | .stuck => ⟨.stuck, []⟩
      | .found true => launchStep os []
      | .found false =>
        if connect_to_share os then launchStep os [.connect]
        else ⟨.exit 1, [.connect]⟩ := by
  rw [inner_main, if_neg (by simp [h3])]

/-- The launch step always appends exactly one launch event. -/
theorem launchStep_events (os : OsWorld) (evs : List Ev) :
    (launchStep os evs).events = evs ++ [.launch] := by
  rw [launchStep]
  by_cases h : open_path os
  · rw [if_pos h]
  · rw [if_neg h]

/-- The launch step exits 0 exactly when `ShellExecuteW` returned a value
above 32. -/
theorem launchStep_outcome (os : OsWorld) (evs : List Ev) :
    (launchStep os evs).outcome = if 32 < os.launchResult then .exit 0 else .exit 1 := by
  rw [launchStep, open_path]
  by_cases h : 32 < os.launchResult
  · rw [if_pos (by simpa using h), if_pos h]
  · rw [if_neg (by simpa using h), if_neg h]

/-- UTF-16 code units of the wide string `\\SRV\SHARE` (the requested share
path spelled in upper case). -/
def srvShareUpperUnits : List Nat := [92, 92, 83, 82, 86, 92, 83, 72, 65, 82, 69]

/-- Environment in which the first enumeration page holds a record matching
the requested path and the second page fetch fails with error code 5. -/
def errorAfterMatchWorld : OsWorld :=
  ⟨⟨NO_ERROR, [⟨NO_ERROR, [⟨some srvShareUpperUnits⟩]⟩, ⟨5, []⟩]⟩, NO_ERROR, 42⟩

/-- Environment in which the first enumeration page holds a record matching
the requested path and the enumeration then terminates cleanly. -/
def cleanMatchWorld : OsWorld :=
  ⟨⟨NO_ERROR, [⟨NO_ERROR, [⟨some srvShareUpperUnits⟩]⟩, ⟨ERROR_NO_MORE_ITEMS, []⟩]⟩,
    NO_ERROR, 42⟩

/-- C1 counterexample: the path `\\srv\share` is present (case-insensitively,
as a literal string) in the connection table reported by the enumeration —
the first page holds a matching record — yet, because a later page fetch
returns an error, the fail-open branch discards the match, and
`inner_main` does invoke the connection establisher (one connect event). -/
theorem c1_counterexample :
    pathInTable "\\\\srv\\share".data errorAfterMatchWorld.enum.pages = true ∧
    (inner_main ["open-share".data, "\\\\srv\\share".data, "alice".data]
        errorAfterMatchWorld).events.count .connect = 1 := by
  decide

/-- C1 (amended): for every path present (case-insensitively, as a literal
string) in the connection table, `inner_main` does not invoke the connection
establisher, provided the enumeration handle opens and every page fetch up
to the no-more-items terminator succeeds with a page that decodes within
the 16 KiB buffer and whose remote names are valid UTF-16. -/
theorem c1_already_open_no_connect (prog path user : List Char) (os : OsWorld)
    (front : List PageResult) (last : PageResult)
    (hopen : os.enum.openResult = NO_ERROR)
    (hpages : os.enum.pages = front ++ [last])
    (hfront : ∀ p ∈ front, pageOk p)
    (hlast : last.code = ERROR_NO_MORE_ITEMS)
    (hmatch : pathInTable path os.enum.pages = true) :
    (inner_main [prog, path, user] os).events.count .connect = 0 := by
  have hfrontmatch : front.any (pageHasMatch (rustLower path)) = true := by
    rw [pathInTable, hpages] at hmatch
    obtain ⟨p, hp, hcond⟩ := List.any_eq_true.mp hmatch
    rcases List.mem_append.mp hp with hpf | hpl
    · rw [Bool.and_eq_true] at hcond
      exact List.any_eq_true.mpr ⟨p, hpf, hcond.2⟩
    · exfalso
      have hpl2 : p = last := by simpa using hpl
      rw [hpl2, hlast] at hcond
      simp [ERROR_NO_MORE_ITEMS, NO_ERROR] at hcond
  have hrun : is_connection_already_open path os.enum = ⟨.found true, true, 1⟩ := by
    rw [is_connection_already_open, if_neg (by simp [hopen])]
    dsimp only
    rw [hpages, enumLoop_clean (rustLower path) front last false hfront hlast]
    simp [hfrontmatch]
  rw [inner_main_of_length [prog, path, user] os rfl]
  have hget : ([prog, path, user] : List (List Char)).getD 1 [] = path := rfl
  rw [hget, hrun]
  dsimp only
  rw [launchStep_events]
  decide

/-- Witness for the amended C1 at a concrete clean-enumeration environment. -/
theorem c1_already_open_no_connect_witness :
    (inner_main ["open-share".data, "\\\\srv\\share".data, "alice".data]
        cleanMatchWorld).events.count .connect = 0 :=
  c1_already_open_no_connect "open-share".data "\\\\srv\\share".data "alice".data
    cleanMatchWorld [⟨NO_ERROR, [⟨some srvShareUpperUnits⟩]⟩]
    ⟨ERROR_NO_MORE_ITEMS, []⟩ rfl rfl (by decide) rfl (by decide)

/-- Environment in which `WNetOpenEnumW` itself fails (so the fail-open path
reports the share as not yet open) and `WNetAddConnection2W` then fails. -/
def connectFailWorld : OsWorld := ⟨⟨5, []⟩, 7, 100⟩

/-- C2: in every run in which the connect call is made and
`WNetAddConnection2W` reports failure, the launcher is never invoked and
the run exits with code 1. -/
theorem c2_connect_failure_aborts (args : List (List Char)) (os : OsWorld)
    (hfail : os.connectResult ≠ NO_ERROR)
    (hcalled : (inner_main args os).events.count .connect = 1) :
    (inner_main args os).outcome = .exit 1 ∧
    (inner_main args os).events.count .launch = 0 := by
  have hconn : connect_to_share os = false := by
    rw [connect_to_share]
    exact beq_eq_false_iff_ne.mpr hfail
  by_cases h3 : args.length = 3
  · rw [inner_main_of_length args os h3] at hcalled ⊢
    match hend : (is_connection_already_open (args.getD 1 []) os.enum).endState with
    | .panicked =>
      rw [hend] at hcalled
      dsimp only at hcalled
      exact absurd hcalled (by decide)
    | .stuck =>
      rw [hend] at hcalled
      dsimp only at hcalled
      exact absurd hcalled (by decide)
    | .found true =>
      rw [hend] at hcalled
      dsimp only at hcalled
      rw [launchStep_events] at hcalled
      exact absurd hcalled (by decide)
    | .found false =>
      dsimp only
      rw [hconn]
      rw [if_neg (by simp)]
      exact ⟨rfl, by decide⟩
  · rw [inner_main, if_pos h3] at hcalled
    dsimp only at hcalled
    exact absurd hcalled (by decide)

/-- Witness for C2: open fails (fail-open reports not connected), the
connect call is made and fails, launch never happens, exit code 1. -/
theorem c2_connect_failure_aborts_witness :
    (inner_main ["open-share".data, "\\\\srv\\new".data, "bob".data]
        connectFailWorld).outcome = .exit 1 ∧
    (inner_main ["open-share".data, "\\\\srv\\new".data, "bob".data]
        connectFailWorld).events.count .launch = 0 :=
  c2_connect_failure_aborts ["open-share".data, "\\\\srv\\new".data, "bob".data]
    connectFailWorld (by decide) (by decide)

/-- A path that is not in the table matches no record of any successfully
fetched page. -/
theorem no_match_of_not_inTable (path : List Char) (pages : List PageResult)
    (h : pathInTable path pages = false) :
    ∀ p ∈ pages, p.code = NO_ERROR → pageHasMatch (rustLower path) p = false := by
  intro p hp hcode
  cases hm : pageHasMatch (rustLower path) p with
  | false => rfl
  | true =>
    exfalso
    rw [pathInTable] at h
    have hx : pages.any
        (fun q => q.code == NO_ERROR && q.records.any (recordMatches (rustLower path))) = true :=
      List.any_eq_true.mpr ⟨p, hp, by rw [Bool.and_eq_true]; exact ⟨by simp [hcode], hm⟩⟩
    rw [h] at hx
    cases hx

/-- An enumeration that reports no matching record on any successfully
fetched page can never end with the found flag set. -/
theorem is_connection_not_found (path : List Char) (os : EnumBehavior)
    (h : ∀ p ∈ os.pages, p.code = NO_ERROR → pageHasMatch (rustLower path) p = false) :
    (is_connection_already_open path os).endState ≠ .found true := by
  rw [is_connection_already_open]
  by_cases hopen : os.openResult ≠ NO_ERROR
  · rw [if_pos hopen]
    intro hcontra
    simp at hcontra
  · rw [if_neg hopen]
    dsimp only
    intro hcontra
    have hb := enumLoop_no_match (rustLower path) os.pages true h hcontra
    cases hb

/-- C3: for every path absent from the connection table, a terminating run
invokes the connection establisher exactly once, before any launch (the
events are exactly a connect, possibly followed by a launch); and in every
run whatsoever the connection table is mutated by at most one connect
call. -/
theorem c3_absent_connects_once :
    (∀ (prog path user : List Char) (os : OsWorld) (n : Nat),
      (inner_main [prog, path, user] os).outcome = .exit n →
      pathInTable path os.enum.pages = false →
      (inner_main [prog, path, user] os).events = [.connect] ∨
        (inner_main [prog, path, user] os).events = [.connect, .launch]) ∧
    (∀ (args : List (List Char)) (os : OsWorld),
      (inner_main args os).events.count .connect ≤ 1) := by
  constructor
  · intro prog path user os n hexit habsent
    rw [inner_main_of_length [prog, path, user] os rfl] at hexit ⊢
    have hget : ([prog, path, user] : List (List Char)).getD 1 [] = path := rfl
    rw [hget] at hexit ⊢
    match hend : (is_connection_already_open path os.enum).endState with
    | .panicked =>
      rw [hend] at hexit
      dsimp only at hexit
      cases hexit
    | .stuck =>
      rw [hend] at hexit
      dsimp only at hexit
      cases hexit
    | .found true =>
      exact absurd hend (is_connection_not_found path os.enum
        (no_match_of_not_inTable path os.enum.pages habsent))
    | .found false =>
      dsimp only
      by_cases hconn : connect_to_share os
      · rw [if_pos hconn, launchStep_events]
        right; rfl
      · rw [if_neg hconn]
        left; rfl
  · intro args os
    by_cases h3 : args.length = 3
    · rw [inner_main_of_length args os h3]
      match hend : (is_connection_already_open (args.getD 1 []) os.enum).endState with
      | .panicked => dsimp only; decide
      | .stuck => dsimp only; decide
      | .found true =>
        dsimp only
        rw [launchStep_events]
        decide
      | .found false =>
        dsimp only
        by_cases hconn : connect_to_share os
        · rw [if_pos hconn, launchStep_events]
          decide
        · rw [if_neg hconn]
          decide
    · rw [inner_main, if_pos h3]
      decide

/-- Environment with an empty connection table, a successful connect, and a
successful launch. -/
def emptyTableWorld : OsWorld :=
  ⟨⟨NO_ERROR, [⟨ERROR_NO_MORE_ITEMS, []⟩]⟩, NO_ERROR, 100⟩

/-- Witness for C3 at a concrete environment with an empty table: the run
connects once and then launches. -/
theorem c3_absent_connects_once_witness :
    (inner_main ["open-share".data, "\\\\srv\\new".data, "bob".data]
        emptyTableWorld).events = [.connect] ∨
    (inner_main ["open-share".data, "\\\\srv\\new".data, "bob".data]
        emptyTableWorld).events = [.connect, .launch] :=
  c3_absent_connects_once.1 "open-share".data "\\\\srv\\new".data "bob".data
    emptyTableWorld 0 (by decide) (by decide)

/-- C4: path matching is case-insensitive equality and otherwise literal —
two strings match exactly when their lowercasings are equal; this is the
comparison the record scan applies to every decoded remote name; spelled
out on the given examples, case differences are ignored while a trailing
separator defeats the match (no canonicalization or trimming of any
kind). -/
theorem c4_pathMatches_spec :
    (∀ a b : List Char, pathMatches a b = true ↔ rustLower a = rustLower b) ∧
    (∀ (path : List Char) (units : List Nat) (chars : List Char),
      wcstr_to_string units = some chars →
      recordMatches (rustLower path) ⟨some units⟩ = pathMatches chars path) ∧
    pathMatches "\\\\srv\\share".data "\\\\SRV\\SHARE".data = true ∧
    pathMatches "\\\\srv\\share".data "\\\\srv\\share\\".data = false := by
  refine ⟨fun a b => ?_, fun path units chars hw => ?_, by decide, by decide⟩
  · rw [pathMatches]
    exact beq_iff_eq
  · rw [recordMatches]
    dsimp only
    rw [hw]
    rw [pathMatches]

/-- Witness for C4 at concrete inputs: a one-letter case-insensitive match,
both through the matcher and through the record scan comparison. -/
theorem c4_pathMatches_spec_witness :
    (pathMatches "a".data "A".data = true ↔ rustLower "a".data = rustLower "A".data) ∧
    recordMatches (rustLower "b".data) ⟨some [66]⟩ = pathMatches "B".data "b".data :=
  ⟨c4_pathMatches_spec.1 "a".data "A".data,
    c4_pathMatches_spec.2.1 "b".data [66] "B".data (by decide)⟩

/-- C5: enumeration is fail-open.  If the handle cannot be opened the check
returns false immediately (no close, nothing fetched); if a page fetch
fails with anything other than no-more-items the loop stops at once,
closes the handle and returns false; and an error on the very first page
yields a result that is independent of whatever records that page or any
later page might carry — zero records are consumed.  In every case the
error is absorbed: the caller only ever sees a boolean. -/
theorem c5_fail_open :
    (∀ (path : List Char) (os : EnumBehavior), os.openResult ≠ NO_ERROR →
      is_connection_already_open path os = ⟨.found false, false, 0⟩) ∧
    (∀ (pl : List Char) (p : PageResult) (rest : List PageResult) (acc : Bool),
      p.code ≠ ERROR_NO_MORE_ITEMS → p.code ≠ NO_ERROR →
      enumLoop pl (p :: rest) acc = ⟨.found false, 1⟩) ∧
    (∀ (path : List Char) (code : Nat) (rs rs2 : List NETRESOURCEW)
        (rest rest2 : List PageResult),
      code ≠ ERROR_NO_MORE_ITEMS → code ≠ NO_ERROR →
      is_connection_already_open path ⟨NO_ERROR, ⟨code, rs⟩ :: rest⟩ =
        is_connection_already_open path ⟨NO_ERROR, ⟨code, rs2⟩ :: rest2⟩) := by
  have hloop : ∀ (pl : List Char) (p : PageResult) (rest : List PageResult) (acc : Bool),
      p.code ≠ ERROR_NO_MORE_ITEMS → p.code ≠ NO_ERROR →
      enumLoop pl (p :: rest) acc = ⟨.found false, 1⟩ := by
    intro pl p rest acc h259 h0
    rw [enumLoop, if_neg h259, if_pos h0]
  refine ⟨fun path os h => ?_, hloop, fun path code rs rs2 rest rest2 h259 h0 => ?_⟩
  · rw [is_connection_already_open, if_pos h]
  · rw [is_connection_already_open, if_neg (by simp)]
    rw [is_connection_already_open, if_neg (by simp)]
    dsimp only
    rw [hloop (rustLower path) ⟨code, rs⟩ rest false h259 h0,
      hloop (rustLower path) ⟨code, rs2⟩ rest2 false h259 h0]

/-- Witness for C5 at concrete environments: a failed open, a failed page
fetch mid-loop, and the independence of the result from the contents of an
erroring first page. -/
theorem c5_fail_open_witness :
    is_connection_already_open "x".data ⟨5, []⟩ = ⟨.found false, false, 0⟩ ∧
    enumLoop [] [⟨31, []⟩] true = ⟨.found false, 1⟩ ∧
    is_connection_already_open "x".data ⟨NO_ERROR, [⟨31, [⟨some [0xD800]⟩]⟩]⟩ =
      is_connection_already_open "x".data ⟨NO_ERROR, [⟨31, []⟩, ⟨7, []⟩]⟩ :=
  ⟨c5_fail_open.1 "x".data ⟨5, []⟩ (by decide),
    c5_fail_open.2.1 [] ⟨31, []⟩ [] true (by decide) (by decide),
    c5_fail_open.2.2 "x".data 31 [⟨some [0xD800]⟩] [] [] [⟨7, []⟩]
      (by decide) (by decide)⟩

/-- C6: whenever the enumeration handle was successfully opened and the
check returns (by exhaustion or by a page-fetch error), the handle is
closed exactly once; when opening failed the close is never called; and no
run whatsoever closes the handle twice. -/
theorem c6_close_exactly_once (path : List Char) (os : EnumBehavior) :
    (os.openResult = NO_ERROR → ∀ b : Bool,
      (is_connection_already_open path os).endState = .found b →
      (is_connection_already_open path os).closeCalls = 1) ∧
    (os.openResult ≠ NO_ERROR → (is_connection_already_open path os).closeCalls = 0) ∧
    (is_connection_already_open path os).closeCalls ≤ 1 := by
  have hcc := enumLoop_closeCalls (rustLower path) os.pages false
  by_cases hopen : os.openResult ≠ NO_ERROR
  · rw [is_connection_already_open, if_pos hopen]
    exact ⟨fun h => absurd h hopen, fun _ => rfl, by decide⟩
  · rw [is_connection_already_open, if_neg hopen]
    dsimp only
    refine ⟨fun _ b hb => ?_, fun h => absurd hopen (by simp [h]), ?_⟩
    · rw [hcc, hb]
    · rw [hcc]
      match (enumLoop (rustLower path) os.pages false).endState with
      | .found b => exact Nat.le_refl 1
      | .panicked => exact Nat.zero_le 1
      | .stuck => exact Nat.zero_le 1

/-- Witness for C6: a run over an immediately exhausted enumeration closes
the handle exactly once. -/
theorem c6_close_exactly_once_witness :
    (is_connection_already_open "x".data
      ⟨NO_ERROR, [⟨ERROR_NO_MORE_ITEMS, []⟩]⟩).closeCalls = 1 :=
  (c6_close_exactly_once "x".data ⟨NO_ERROR, [⟨ERROR_NO_MORE_ITEMS, []⟩]⟩).1
    rfl false (by decide)

/-- C7: every terminating run exits 0 or 1; it exits 0 exactly when the
arity is right, the share was already reachable (the check found it) or
the connect call succeeded, and the launch call returned a value above the
failure threshold 32.  Equivalently, exit code 1 occurs exactly on an
argument-count error, a connect failure, or a launch failure. -/
theorem c7_exit_codes (args : List (List Char)) (os : OsWorld) (n : Nat)
    (h : (inner_main args os).outcome = .exit n) :
    (n = 0 ∨ n = 1) ∧
    (n = 0 ↔ (args.length = 3 ∧
      ((is_connection_already_open (args.getD 1 []) os.enum).endState = .found true ∨
        os.connectResult = NO_ERROR) ∧
      32 < os.launchResult)) := by
  by_cases h3 : args.length = 3
  · rw [inner_main_of_length args os h3] at h
    match hend : (is_connection_already_open (args.getD 1 []) os.enum).endState with
    | .panicked =>
      rw [hend] at h
      dsimp only at h
      cases h
    | .stuck =>
      rw [hend] at h
      dsimp only at h
      cases h
    | .found true =>
      rw [hend] at h
      dsimp only at h
      rw [launchStep_outcome] at h
      by_cases hl : 32 < os.launchResult
      · rw [if_pos hl] at h
        cases h
        exact ⟨Or.inl rfl, by simp [h3, hl]⟩
      · rw [if_neg hl] at h
        cases h
        exact ⟨Or.inr rfl, by simp [hl]⟩
    | .found false =>
      rw [hend] at h
      dsimp only at h
      by_cases hconn : connect_to_share os
      · rw [if_pos hconn, launchStep_outcome] at h
        have hcr : os.connectResult = NO_ERROR := by
          rw [connect_to_share] at hconn
          exact eq_of_beq hconn
        by_cases hl : 32 < os.launchResult
        · rw [if_pos hl] at h
          cases h
          exact ⟨Or.inl rfl, by simp [h3, hcr, hl]⟩
        · rw [if_neg hl] at h
          cases h
          exact ⟨Or.inr rfl, by simp [hl]⟩
      · rw [if_neg hconn] at h
        dsimp only at h
        cases h
        have hcr : os.connectResult ≠ NO_ERROR := by
          rw [connect_to_share] at hconn
          simpa using hconn
        refine ⟨Or.inr rfl, by simp [hend, hcr]⟩
  · rw [inner_main, if_pos h3] at h
    dsimp only at h
    cases h
    exact ⟨Or.inr rfl, by simp [h3]⟩

/-- Witness for C7 at a concrete environment: empty table, successful
connect, successful launch, exit code 0. -/
theorem c7_exit_codes_witness :
    ((0 : Nat) = 0 ∨ (0 : Nat) = 1) ∧
    ((0 : Nat) = 0 ↔ ((["open-share".data, "\\\\srv\\new".data, "bob".data] :
        List (List Char)).length = 3 ∧
      ((is_connection_already_open
          ((["open-share".data, "\\\\srv\\new".data, "bob".data] :
            List (List Char)).getD 1 []) emptyTableWorld.enum).endState = .found true ∨
        emptyTableWorld.connectResult = NO_ERROR) ∧
      32 < emptyTableWorld.launchResult)) :=
  c7_exit_codes ["open-share".data, "\\\\srv\\new".data, "bob".data]
    emptyTableWorld 0 (by decide)

/-- C8: a record with a null remote-name pointer is skipped — scanning it is
the same as scanning the rest, it never matches any candidate path, and
dropping all null-name records leaves every scan unchanged (so a null
record can neither match nor fail the check). -/
theorem c8_null_remote_skipped :
    (∀ (pl : List Char) (rest : List NETRESOURCEW),
      scanRecords pl (⟨none⟩ :: rest) = scanRecords pl rest) ∧
    (∀ pl : List Char, recordMatches pl ⟨none⟩ = false) ∧
    (∀ (pl : List Char) (rs : List NETRESOURCEW),
      scanRecords pl rs = scanRecords pl (rs.filter fun r => r.lpRemoteName.isSome)) := by
  refine ⟨fun pl rest => rfl, fun pl => rfl, fun pl rs => ?_⟩
  induction rs with
  | nil => rfl
  | cons r rest ih =>
    match hname : r.lpRemoteName with
    | none =>
      rw [List.filter_cons]
      rw [if_neg (by rw [hname]; simp)]
      rw [scanRecords, hname]
      exact ih
    | some units =>
      rw [List.filter_cons]
      rw [if_pos (by rw [hname]; rfl)]
      rw [scanRecords, hname]
      conv_rhs => rw [scanRecords, hname]
      dsimp only
      match hw : wcstr_to_string units with
      | none => rfl
      | some chars =>
        dsimp only
        cases hm : rustLower chars == pl with
        | true => simp only [hm, if_true]
        | false =>
          simp only [hm, Bool.false_eq_true, if_false]
          exact ih

/-- Witness for C8 at a concrete input: a null-name record in front of an
empty list scans identically to the empty list. -/
theorem c8_null_remote_skipped_witness :
    scanRecords "x".data [⟨none⟩] = scanRecords "x".data [] :=
  c8_null_remote_skipped.1 "x".data []

/-- Environment whose single successful page carries one record whose
remote name is an unpaired high surrogate (invalid UTF-16). -/
def surrogateEnum : EnumBehavior :=
  ⟨NO_ERROR, [⟨NO_ERROR, [⟨some [0xD800]⟩]⟩]⟩

/-- C9: a record whose non-null remote name is not valid UTF-16 makes
`is_connection_already_open` panic (the `unwrap` in `wcstr_to_string`
fails) instead of skipping the record or failing open: decoding the
unpaired surrogate yields no string, and the run ends in the panicked
state (so it is also not a normal `found` return, and the handle is never
closed). -/
theorem c9_invalid_utf16_panics :
    wcstr_to_string [0xD800] = none ∧
    (is_connection_already_open "\\\\srv\\share".data surrogateEnum).endState =
      .panicked ∧
    (is_connection_already_open "\\\\srv\\share".data surrogateEnum).closeCalls = 0 := by
  decide

/-- Environment whose single successful page reports 342 records — more
than the 341 that fit into the 16 KiB buffer at 48 bytes apiece. -/
def oversizedEnum : EnumBehavior :=
  ⟨NO_ERROR, [⟨NO_ERROR, List.replicate 342 ⟨none⟩⟩]⟩

set_option maxRecDepth 4000 in
/-- C10: a page whose reported record count times the struct size exceeds
the 16 KiB buffer makes the page decode panic (the `read_exact` `unwrap`
fails) rather than rejecting or skipping the page: 342 records need more
than the buffer holds and the run ends in the panicked state, while 341
records would still fit. -/
theorem c10_oversized_count_panics :
    enumBufferSize < 342 * sizeOfNETRESOURCEW ∧
    (is_connection_already_open "\\\\srv\\share".data oversizedEnum).endState =
      .panicked ∧
    341 * sizeOfNETRESOURCEW ≤ enumBufferSize := by
  decide

end OpenShare
